import Mathlib

/-!
Verification of the MCP benchmark harness (`benchmark.js`, `run_benchmark.sh`)
and the target-server tool handlers (`nodejs-server/index.js`, the Go server,
`McpToolsService.java`) against their natural-language specification.

The development shallowly embeds the JavaScript of `benchmark.js` over a
model of JSON values together with the JavaScript truthiness / property
access semantics the code relies on.  `JSON.parse` is kept abstract (a
parameter `p : String → Option Json`) in the generic theorems; an
executable miniature JSON parser `jsonParse` instantiates it on the
concrete inputs used by witnesses and counterexamples.
-/

set_option autoImplicit false

/-- Model of a JSON value (the values produced by `JSON.parse`).  Numbers are
modelled as integers: every numeric literal handled by the benchmark and the
tool handlers is an integer. -/
inductive Json where
  | null
  | bool (b : Bool)
  | num (n : Int)
  | str (s : String)
  | arr (elems : List Json)
  | obj (fields : List (String × Json))
  deriving Repr

namespace Json

/-- JavaScript truthiness of a JSON value: `null`, `false`, `0` and `""` are
falsy, everything else (including `[]` and `{}`) is truthy. -/
def jsTruthy : Json → Bool
  | .null => false
  | .bool b => b
  | .num n => n != 0
  | .str s => s != ""
  | .arr _ => true
  | .obj _ => true

/-- JavaScript property access `v.k`: defined (`some`) only on objects that
carry the key; on every other value the access yields `undefined`
(modelled as `none`). -/
def jsGet : Json → String → Option Json
  | .obj fields, k => fields.lookup k
  | _, _ => none

/-- Truthiness of a possibly-`undefined` value (`undefined` is falsy). -/
def jsTruthyOpt : Option Json → Bool
  | none => false
  | some v => v.jsTruthy

/-- JavaScript indexing `v[i]` for a numeric literal `i`: array element,
object property named by the decimal numeral, or the 1-character string at
that position of a string; `undefined` (`none`) otherwise. -/
def jsIndex : Json → Nat → Option Json
  | .arr xs, i => xs.get? i
  | .obj fields, i => fields.lookup (toString i)
  | .str s, i => (s.data.get? i).map fun c => Json.str (String.mk [c])
  | _, _ => none

end Json

/-! ### JavaScript string primitives

The string operations used by `benchmark.js` (`trim`, `startsWith`,
`split('\n')`, `substring`, `toUpperCase`) are embedded directly over the
character list of the string, mirroring their JavaScript semantics on the
ASCII inputs involved. -/

/-- JavaScript whitespace for `String.prototype.trim` (the ASCII part). -/
def jsIsWS (c : Char) : Bool :=
  c = ' ' || c = '\t' || c = '\n' || c = '\r' || c = '\x0b' || c = '\x0c'

/-- `s.trim()` — strip leading and trailing whitespace. -/
def jsTrim (s : String) : String :=
  String.mk (((s.data.dropWhile jsIsWS).reverse.dropWhile jsIsWS).reverse)

/-- `s.startsWith(pre)`. -/
def jsStartsWith (s pre : String) : Bool :=
  pre.data.isPrefixOf s.data

/-- `s.substring(n)` — drop the first `n` characters. -/
def jsSubstring (s : String) (n : Nat) : String :=
  String.mk (s.data.drop n)

/-- Split a character list at every occurrence of the separator. -/
def jsSplitCharAux (sep : Char) : List Char → List Char → List String
  | [], acc => [String.mk acc.reverse]
  | c :: cs, acc =>
    if c = sep then String.mk acc.reverse :: jsSplitCharAux sep cs []
    else jsSplitCharAux sep cs (c :: acc)

/-- `s.split(sep)` for a 1-character separator (the benchmark splits on
`'\n'`).  Like JavaScript, empty fragments are kept. -/
def jsSplit (s : String) (sep : Char) : List String :=
  jsSplitCharAux sep s.data []

/-- `s.toUpperCase()` (ASCII). -/
def jsToUpper (s : String) : String :=
  String.mk (s.data.map Char.toUpper)

mutual

/-- ECMAScript `ToString` on a JSON value.  `JSON.parse` applies this
coercion to its argument before parsing, so the scenario checks must model
it: `null`, booleans and numbers print their literals, a string is itself,
an array joins its elements with commas (`Array.prototype.toString`, where
a `null` element contributes the empty string), and a plain object prints
`"[object Object]"`. -/
def jsToString : Json → String
  | .null => "null"
  | .bool b => if b then "true" else "false"
  | .num n => toString n
  | .str s => s
  | .arr xs => jsArrayJoin xs
  | .obj _ => "[object Object]"

/-- `Array.prototype.join(',')` under `ToString`. -/
def jsArrayJoin : List Json → String
  | [] => ""
  | x :: xs =>
    let hd := match x with
      | Json.null => ""
      | v => jsToString v
    match xs with
    | [] => hd
    | _ :: _ => hd ++ "," ++ jsArrayJoin xs

end

/-! ### A miniature executable JSON parser

`benchmark.js` calls the engine's `JSON.parse`.  The generic theorems keep
that function abstract; concrete witnesses and counterexamples instantiate
it with `jsonParse` below, a recursive-descent parser for the JSON fragment
exercised by the benchmark (objects, arrays, strings with the common
escapes, integers, literals).  The recursion is fuelled so that every
concrete run reduces inside the kernel. -/

/-- JSON insignificant whitespace. -/
def jsonWS (c : Char) : Bool := c = ' ' || c = '\t' || c = '\n' || c = '\r'

/-- Parse the remainder of a JSON string literal (the opening quote already
consumed), handling the escapes `\" \\ \/ \n \t \r`. -/
def parseJsonStr : List Char → List Char → Option (String × List Char)
  | [], _ => none
  | '"' :: rest, acc => some (String.mk acc.reverse, rest)
  | '\\' :: e :: rest, acc =>
    match (match e with
      | '"' => some '"' | '\\' => some '\\' | '/' => some '/'
      | 'n' => some '\n' | 't' => some '\t' | 'r' => some '\r'
      | _ => none) with
    | some c => parseJsonStr rest (c :: acc)
    | none => none
  | c :: rest, acc => parseJsonStr rest (c :: acc)

/-- Accumulate a run of decimal digits. -/
def parseJsonDigitsAux : List Char → Nat → Nat × List Char
  | [], acc => (acc, [])
  | c :: cs, acc => if c.isDigit then parseJsonDigitsAux cs (acc * 10 + (c.toNat - 48)) else (acc, c :: cs)

/-- Parse a nonempty run of decimal digits. -/
def parseJsonNum : List Char → Option (Nat × List Char)
  | [] => none
  | c :: cs => if c.isDigit then some (parseJsonDigitsAux (c :: cs) 0) else none

mutual

/-- Parse one JSON value, returning it with the unconsumed remainder. -/
def parseJsonVal : Nat → List Char → Option (Json × List Char)
  | 0, _ => none
  | fuel+1, cs0 =>
    match cs0.dropWhile jsonWS with
    | 'n' :: 'u' :: 'l' :: 'l' :: rest => some (.null, rest)
    | 't' :: 'r' :: 'u' :: 'e' :: rest => some (.bool true, rest)
    | 'f' :: 'a' :: 'l' :: 's' :: 'e' :: rest => some (.bool false, rest)
    | '"' :: rest => (parseJsonStr rest []).map fun p => (.str p.1, p.2)
    | '{' :: rest =>
      (match (rest.dropWhile jsonWS) with
       | '}' :: rest2 => some (.obj [], rest2)
       | cs => parseJsonMembers fuel cs [])
    | '[' :: rest =>
      (match (rest.dropWhile jsonWS) with
       | ']' :: rest2 => some (.arr [], rest2)
       | cs => parseJsonElems fuel cs [])
    | '-' :: rest => (parseJsonNum rest).map fun p => (.num (-(p.1 : Int)), p.2)
    | cs => (parseJsonNum cs).map fun p => (.num (p.1 : Int), p.2)

/-- Parse the members of a JSON object (after the opening brace). -/
def parseJsonMembers : Nat → List Char → List (String × Json) → Option (Json × List Char)
  | 0, _, _ => none
  | fuel+1, cs, acc =>
    match cs.dropWhile jsonWS with
    | '"' :: rest =>
      match parseJsonStr rest [] with
      | none => none
      | some (key, rest1) =>
        match rest1.dropWhile jsonWS with
        | ':' :: rest2 =>
          match parseJsonVal fuel rest2 with
          | none => none
          | some (v, rest3) =>
            match rest3.dropWhile jsonWS with
            | ',' :: rest4 => parseJsonMembers fuel rest4 ((key, v) :: acc)
            | '}' :: rest4 => some (.obj (((key, v) :: acc).reverse), rest4)
            | _ => none
        | _ => none
    | _ => none

/-- Parse the elements of a JSON array (after the opening bracket). -/
def parseJsonElems : Nat → List Char → List Json → Option (Json × List Char)
  | 0, _, _ => none
  | fuel+1, cs, acc =>
    match parseJsonVal fuel cs with
    | none => none
    | some (v, rest) =>
      match rest.dropWhile jsonWS with
      | ',' :: rest2 => parseJsonElems fuel rest2 (v :: acc)
      | ']' :: rest2 => some (.arr ((v :: acc).reverse), rest2)
      | _ => none

end

/-- `JSON.parse` on the JSON fragment used by the benchmark: parse one value
and require that only whitespace remains. -/
def jsonParse (s : String) : Option Json :=
  match parseJsonVal (2 * s.length + 4) s.data with
  | some (v, rest) => if rest.dropWhile jsonWS = [] then some v else none
  | none => none

/-! ### `parseBody` (`src/benchmark/benchmark.js` lines 39-63)

Translated clause by clause from the source.  The engine's `JSON.parse` is
the parameter `p`; a `null` response body is `none`. -/

/-- The SSE `for (const line of lines)` loop of `parseBody`: return the
first `data:` frame whose stripped payload starts with `{` and parses. -/
def sseLoop (p : String → Option Json) : List String → Option Json
  | [] => none
  | line :: rest =>
    let trimmed := jsTrim line
    if jsStartsWith trimmed "data:" then
      let payload := jsTrim (jsSubstring trimmed 5)
      if payload != "" && jsStartsWith payload "\x7b" then
        match p payload with
        | some v => some v
        | none => sseLoop p rest
      else sseLoop p rest
    else sseLoop p rest

/-- `parseBody(body)` — parse a response body that may be plain JSON or an
SSE stream; `none` models the JavaScript `null` ("no result"). -/
def parseBody (p : String → Option Json) (body : Option String) : Option Json :=
  match body with
  | none => none
  | some b =>
    if b = "" then none
    else
      let text := jsTrim b
      if text.length = 0 then none
      else
        match (if jsStartsWith text "\x7b" || jsStartsWith text "[" then p text else none) with
        | some v => some v
        | none => sseLoop p (jsSplit text '\n')

/-! ### The session driver (`benchmark.js` lines 65-135)

`k6`'s metrics and HTTP layer are embedded explicitly: the three custom
counters are threaded as a `Metrics` state, each HTTP exchange appends an
`Event` to a trace, and the target server's behaviour is an explicit input
(`ServerBehavior`) giving the response to each of the four exchanges of a
session. -/

/-- One HTTP response as seen by the script: the `Mcp-Session-Id` response
header (absent = `none`), the raw body (`null` = `none`) and
`res.timings.duration` in milliseconds. -/
structure HttpResponse where
  sessionHeader : Option String
  body : Option String
  timing : Int
  deriving Repr

/-- The responses a target server returns to the four exchanges of one
`mcpSession` run (initialize, the initialized notification, the tool call,
and the teardown DELETE). -/
structure ServerBehavior where
  initRes : HttpResponse
  notifyRes : HttpResponse
  callRes : HttpResponse
  deleteRes : HttpResponse
  deriving Repr

/-- The custom k6 metrics owned by the script: the `mcp_requests` and
`mcp_errors` counters and the sample list of the `mcp_error_rate` rate. -/
structure Metrics where
  mcpRequests : Nat
  mcpErrors : Nat
  errorRateSamples : List Bool
  deriving Repr, DecidableEq

/-- The zero state of the custom metrics. -/
def Metrics.init : Metrics := ⟨0, 0, []⟩

/-- One HTTP exchange in the trace of a run.  `post` is a JSON-RPC request
sent through `mcpPost` (which bumps `mcp_requests`); `rawPost` is a direct
`http.post` (the initialized notification); `del` is the teardown
`http.del`. -/
inductive Event where
  | post (method : String) (sessionId : Option String)
  | rawPost (method : String) (sessionId : Option String)
  | del (sessionId : String)
  deriving Repr, DecidableEq

/-- JavaScript truthiness of the nullable `sessionId` string. -/
def jsTruthyStr : Option String → Bool
  | none => false
  | some s => s != ""

/-- `res.headers['Mcp-Session-Id'] || sessionId` (line 78): a present,
nonempty header replaces the current token; otherwise the current token is
kept. -/
def nextSessionId (res : HttpResponse) (sessionId : Option String) : Option String :=
  match res.sessionHeader with
  | some h => if h = "" then sessionId else some h
  | none => sessionId

/-- `mcpPost(payload, sessionId)` (lines 65-82): send the request, bump
`mcp_requests` by one, capture the session token from the response header,
decode the body.  Returns the updated metrics, the emitted event, the
decoded result and the new session token. -/
def mcpPost (p : String → Option Json) (method : String) (res : HttpResponse)
    (sessionId : Option String) (m : Metrics) :
    Metrics × Event × Option Json × Option String :=
  ({ m with mcpRequests := m.mcpRequests + 1 },
   Event.post method sessionId,
   parseBody p res.body,
   nextSessionId res sessionId)

/-- `const isError = !callResult || callResult.error || !callResult.result`
(line 126), with JavaScript truthiness. -/
def isErrorOf (callResult : Option Json) : Bool :=
  match callResult with
  | none => true
  | some j =>
    if !j.jsTruthy then true
    else if Json.jsTruthyOpt (j.jsGet "error") then true
    else !Json.jsTruthyOpt (j.jsGet "result")

/-- The value part of a finished session (`return` at line 134): the raw
initialize and tool-call responses, the decoded tool-call result, the
wall-clock duration measured before the teardown, and the session token. -/
structure SessionOut where
  initRes : HttpResponse
  callRes : HttpResponse
  callResult : Option Json
  totalDuration : Int
  sessionId : Option String
  deriving Repr

/-- `mcpSession(toolName, toolArgs)` (lines 84-135): initialize, notify,
tool call, conditional teardown DELETE, then error classification.  The
wall clock between `start` and line 117 is modelled as the sum of the
durations of the three exchanges it spans.  The teardown response
`sv.deleteRes` is received but — like the source, which ignores the value
of `http.del` — never read. -/
def mcpSession (p : String → Option Json) (toolName : String) (sv : ServerBehavior)
    (m : Metrics) : Metrics × List Event × SessionOut :=
  let (m1, ev1, _initResult, sessionId) := mcpPost p "initialize" sv.initRes none m
  let ev2 := Event.rawPost "notifications/initialized" sessionId
  let (m2, ev3, callResult, _) := mcpPost p ("tools/call:" ++ toolName) sv.callRes sessionId m1
  let totalDuration := sv.initRes.timing + sv.notifyRes.timing + sv.callRes.timing
  let delEvents := match sessionId with
    | some s => if s = "" then [] else [Event.del s]
    | none => []
  let isError := isErrorOf callResult
  let m3 :=
    if isError then
      { m2 with mcpErrors := m2.mcpErrors + 1,
                errorRateSamples := m2.errorRateSamples ++ [true] }
    else { m2 with errorRateSamples := m2.errorRateSamples ++ [false] }
  (m3, [ev1, ev2, ev3] ++ delEvents,
   ⟨sv.initRes, sv.callRes, callResult, totalDuration, sessionId⟩)

/-! ### Scenario checks and the `TOOLS` table (`benchmark.js` lines 138-175) -/

/-- The `calculate_fibonacci` scenario check (lines 144-148):
`JSON.parse(r.result.content[0].text).result === 55` behind the truthiness
guard, with `try/catch → false`.  Property access inside the `try` block is
modelled by `Option`-chaining, and `JSON.parse` first coerces its argument
with `jsToString` (ECMAScript `ToString`), so a non-string `text` — e.g. a
one-element array holding a JSON string — is parsed through its coercion,
as the engine does.  The `none` (`undefined`/`TypeError`) branch is
`false`: a missing `text` coerces to the word `undefined`, which no JSON
parse accepts, and an access on `null` throws before the parse runs — in
both cases the source returns `false`. -/
def fibCheck (p : String → Option Json) (r : Option Json) : Bool :=
  match r with
  | none => false
  | some j =>
    if !j.jsTruthy then false
    else match j.jsGet "result" with
    | none => false
    | some res =>
      if !res.jsTruthy then false
      else match res.jsGet "content" with
      | none => false
      | some content =>
        if !content.jsTruthy then false
        else match content.jsIndex 0 with
        | none => false
        | some elt =>
          match elt.jsGet "text" with
          | none => false
          | some t =>
            match p (jsToString t) with
            | none => false
            | some v =>
              match v.jsGet "result" with
              | some (Json.num n) => n == 55
              | _ => false

/-- The `fetch_external_data` scenario check (line 155):
`(r) => r && r.result && r.result.content` coerced to a boolean. -/
def fetchCheck (r : Option Json) : Bool :=
  match r with
  | none => false
  | some j =>
    j.jsTruthy && Json.jsTruthyOpt (j.jsGet "result")
      && Json.jsTruthyOpt ((j.jsGet "result").bind (fun res => res.jsGet "content"))

/-- The `process_json_data` scenario check (lines 162-166):
`JSON.parse(r.result.content[0].text).transformed_data.name === 'BENCHMARK'`
behind the same guard, `try/catch` and `ToString` coercion of the `text`
argument as `fibCheck`. -/
def transformCheck (p : String → Option Json) (r : Option Json) : Bool :=
  match r with
  | none => false
  | some j =>
    if !j.jsTruthy then false
    else match j.jsGet "result" with
    | none => false
    | some res =>
      if !res.jsTruthy then false
      else match res.jsGet "content" with
      | none => false
      | some content =>
        if !content.jsTruthy then false
        else match content.jsIndex 0 with
        | none => false
        | some elt =>
          match elt.jsGet "text" with
          | none => false
          | some t =>
            match p (jsToString t) with
            | none => false
            | some v =>
              match v.jsGet "transformed_data" with
              | none => false
              | some td =>
                match td.jsGet "name" with
                | some (Json.str name) => name == "BENCHMARK"
                | _ => false

/-- The `simulate_database_query` scenario check (line 173), identical in
shape to `fetchCheck`. -/
def dbCheck (r : Option Json) : Bool :=
  match r with
  | none => false
  | some j =>
    j.jsTruthy && Json.jsTruthyOpt (j.jsGet "result")
      && Json.jsTruthyOpt ((j.jsGet "result").bind (fun res => res.jsGet "content"))

/-- One entry of the `TOOLS` table: scenario name, argument payload, the
name of its latency trend, the k6 check name and the validation
predicate (parameterised by the engine's `JSON.parse`). -/
structure ToolSpec where
  name : String
  args : Json
  metric : String
  checkName : String
  check : (String → Option Json) → Option Json → Bool

/-- The `TOOLS` table (lines 138-175), in declared order. -/
def TOOLS : List ToolSpec :=
  [ { name := "calculate_fibonacci",
      args := Json.obj [("n", Json.num 10)],
      metric := "mcp_fibonacci_duration",
      checkName := "fibonacci ok",
      check := fibCheck },
    { name := "fetch_external_data",
      args := Json.obj [("endpoint", Json.str "http://mock-api:1080/api")],
      metric := "mcp_fetch_duration",
      checkName := "fetch ok",
      check := fun _ => fetchCheck },
    { name := "process_json_data",
      args := Json.obj [("data", Json.obj
        [("name", Json.str "benchmark"), ("count", Json.num 42),
         ("nested", Json.obj [("key", Json.str "value")])])],
      metric := "mcp_json_process_duration",
      checkName := "json_process ok",
      check := transformCheck },
    { name := "simulate_database_query",
      args := Json.obj [("query", Json.str "SELECT * FROM benchmarks"), ("delay_ms", Json.num 10)],
      metric := "mcp_db_query_duration",
      checkName := "db_query ok",
      check := fun _ => dbCheck } ]

/-! ### The default VU function (`benchmark.js` lines 178-223) -/

/-- A session-level event of one iteration of the default function. -/
inductive IterEvent where
  | scenario (toolName : String)
  | listing
  | think (seconds : Rat)
  deriving Repr, DecidableEq

/-- The standalone `tools/list` block (lines 194-220): its own initialize,
notification, `tools/list` call and conditional teardown; the decoded list
result feeds only the `tools/list ok` check. -/
def listSessionBlock (p : String → Option Json) (sv : ServerBehavior) (m : Metrics) :
    Metrics × List Event × Bool :=
  let (m1, ev1, _initResult, sessionId) := mcpPost p "initialize" sv.initRes none m
  let ev2 := Event.rawPost "notifications/initialized" sessionId
  let (m2, ev3, listResult, _) := mcpPost p "tools/list" sv.callRes sessionId m1
  let ok := match listResult with
    | none => false
    | some j =>
      j.jsTruthy && Json.jsTruthyOpt (j.jsGet "result")
        && Json.jsTruthyOpt ((j.jsGet "result").bind (fun res => res.jsGet "tools"))
  let delEvents := match sessionId with
    | some s => if s = "" then [] else [Event.del s]
    | none => []
  (m2, [ev1, ev2, ev3] ++ delEvents, ok)

/-- The `for (const tool of TOOLS)` loop of the default function: one full
`mcpSession` per tool (the server behaviour for the i-th session is
`seq i`), recording the scenario's check outcome. -/
def runTools (p : String → Option Json) (seq : Nat → ServerBehavior) :
    List ToolSpec → Nat → Metrics → Metrics × List IterEvent × List (String × Bool)
  | [], _, m => (m, [], [])
  | t :: ts, i, m =>
    let (m1, _evs, out) := mcpSession p t.name (seq i) m
    let checkResult := t.check p out.callResult
    let (m2, evs, checks) := runTools p seq ts (i + 1) m1
    (m2, IterEvent.scenario t.name :: evs, (t.checkName, checkResult) :: checks)

/-- One iteration of the exported default function (lines 178-223): the
four scenarios in `TOOLS` order, the standalone `tools/list` session, then
`sleep(0.1)`. -/
def defaultIteration (p : String → Option Json) (seq : Nat → ServerBehavior) (m : Metrics) :
    Metrics × List IterEvent × List (String × Bool) :=
  let (m1, evs, checks) := runTools p seq TOOLS 0 m
  let (m2, _listEvs, listOk) := listSessionBlock p (seq 4) m1
  (m2, evs ++ [IterEvent.listing, IterEvent.think (1/10)],
   checks ++ [("tools/list ok", listOk)])

/-! ### The custom summary (`benchmark.js` lines 226-295) -/

/-- The end-of-run metrics object k6 hands to `handleSummary`: for each
metric name, either `undefined` or its map of aggregated values. -/
structure SummaryData where
  metrics : String → Option (String → Option Rat)

/-- `getValue(data, metric, key, fallback)` (lines 276-278): a missing
metric throws and yields the fallback; a present metric with a missing key
yields `undefined` (`none`). -/
def getValue (data : SummaryData) (metric key : String) (fallback : Option Rat) : Option Rat :=
  match data.metrics metric with
  | none => fallback
  | some vals => vals key

/-- `getPercentile(data, metric, p)` (lines 280-282). -/
def getPercentile (data : SummaryData) (metric pct : String) : Option Rat :=
  match data.metrics metric with
  | none => none
  | some vals => vals ("p(" ++ pct ++ ")")

/-- One trend block of the summary (`extractTrend`, lines 284-295). -/
structure TrendOut where
  avg : Option Rat
  min : Option Rat
  max : Option Rat
  p50 : Option Rat
  p90 : Option Rat
  p95 : Option Rat
  p99 : Option Rat
  count : Option Rat
  deriving Repr, DecidableEq

/-- `extractTrend(data, name)`: `null` for a missing metric, else all eight
aggregates. -/
def extractTrend (data : SummaryData) (name : String) : Option TrendOut :=
  match data.metrics name with
  | none => none
  | some vals =>
    some ⟨vals "avg", vals "min", vals "max", vals "p(50)", vals "p(90)",
          vals "p(95)", vals "p(99)", vals "count"⟩

/-- The `http.latency` block of the summary (lines 237-245). -/
structure LatencyOut where
  avg : Option Rat
  min : Option Rat
  max : Option Rat
  p50 : Option Rat
  p90 : Option Rat
  p95 : Option Rat
  p99 : Option Rat
  deriving Repr, DecidableEq

/-- The `http` block of the summary (lines 233-246). -/
structure HttpOut where
  total_requests : Option Rat
  failed_requests : Option Rat
  rps : Option Rat
  latency : LatencyOut
  deriving Repr, DecidableEq

/-- The `mcp` block of the summary (lines 247-251). -/
structure McpOut where
  total_mcp_requests : Option Rat
  mcp_errors : Option Rat
  error_rate : Option Rat
  deriving Repr, DecidableEq

/-- The summary artifact written by `handleSummary` (lines 229-268; the
wall-clock `timestamp` and the constant `config` block are outside the
model). -/
structure Summary where
  server : String
  http : HttpOut
  mcp : McpOut
  session : Option TrendOut
  tools : List (String × TrendOut)
  deriving Repr, DecidableEq

/-- The `toolMetrics` table (lines 256-263), in declared order. -/
def toolMetrics : List (String × String) :=
  [ ("calculate_fibonacci", "mcp_fibonacci_duration"),
    ("fetch_external_data", "mcp_fetch_duration"),
    ("process_json_data", "mcp_json_process_duration"),
    ("simulate_database_query", "mcp_db_query_duration"),
    ("_initialize", "mcp_initialize_duration"),
    ("_tools_list", "mcp_tools_list_duration") ]

/-- The summary object built by `handleSummary` (lines 229-268), a pure
function of the metrics data: HTTP counters, the full latency distribution,
the MCP counters, the whole-session trend and one trend per tool. -/
def buildSummary (server : String) (data : SummaryData) : Summary :=
  { server := server,
    http :=
      { total_requests := getValue data "http_reqs" "count" (some 0),
        failed_requests := getValue data "http_req_failed" "passes" (some 0),
        rps := getValue data "http_reqs" "rate" (some 0),
        latency :=
          { avg := getValue data "http_req_duration" "avg" none,
            min := getValue data "http_req_duration" "min" none,
            max := getValue data "http_req_duration" "max" none,
            p50 := getPercentile data "http_req_duration" "50",
            p90 := getPercentile data "http_req_duration" "90",
            p95 := getPercentile data "http_req_duration" "95",
            p99 := getPercentile data "http_req_duration" "99" } },
    mcp :=
      { total_mcp_requests := getValue data "mcp_requests" "count" (some 0),
        mcp_errors := getValue data "mcp_errors" "count" (some 0),
        error_rate := getValue data "mcp_error_rate" "rate" (some 0) },
    session := extractTrend data "mcp_full_session_duration",
    tools := toolMetrics.filterMap
      (fun pr => (extractTrend data pr.2).map (fun t => (pr.1, t))) }

/-- `handleSummary(data)` (lines 226-274): the returned artifact map,
keyed by the output path (the `stdout` text rendering is outside the
model). -/
def handleSummary (outputPath server : String) (data : SummaryData) : String × Summary :=
  (outputPath, buildSummary server data)

/-- The thresholds of `options` (lines 16-18): the metric each threshold
expression is attached to. -/
def optionsThresholds : List (String × List String) :=
  [("http_req_failed", ["rate<0.05"])]

/-- The measured transport failure rate the configured threshold is
evaluated against. -/
def httpReqFailedRate (data : SummaryData) : Rat :=
  (getValue data "http_req_failed" "rate" (some 0)).getD 0

/-- k6's evaluation of the configured threshold expression
`'rate<0.05'` on the `http_req_failed` metric. -/
def thresholdPasses (data : SummaryData) : Bool :=
  httpReqFailedRate data < 1/20

/-- Outcome of one k6 run: whether the configured thresholds passed, and
the artifact written from `handleSummary`'s return value. -/
structure RunOutput where
  passed : Bool
  artifact : String × Summary
  deriving Repr, DecidableEq

/-- Model of the k6 engine's end-of-run behaviour: it evaluates the
thresholds declared in `options` to decide the run's pass/fail status, and
it always invokes `handleSummary` on the final metrics and writes whatever
it returns — the two are independent. -/
def k6Run (outputPath server : String) (data : SummaryData) : RunOutput :=
  ⟨thresholdPasses data, handleSummary outputPath server data⟩

/-! ### Target-server tool handlers

The Go server (`handleFibonacci`, `handleProcessData`), the Node.js server
(`index.js`) and the Java server (`McpToolsService.java`). -/

/-- Output record of the Go `calculate_fibonacci` handler. -/
structure FibonacciOutput where
  input : Int
  result : Int
  server_type : String
  deriving Repr, DecidableEq

/-- The Go server's inner recursive `fib` closure:
`fib(x) = x` for `x <= 1`, else `fib(x-1) + fib(x-2)`. -/
def goFib (x : Int) : Int :=
  if x ≤ 1 then x else goFib (x - 1) + goFib (x - 2)
termination_by x.toNat
decreasing_by all_goals omega

/-- The Go `handleFibonacci` tool handler: reject `n` outside `[0, 40]`,
else return `{input, result, server_type}`. -/
def handleFibonacci (n : Int) : Except String FibonacciOutput :=
  if n < 0 || n > 40 then Except.error "n deve estar entre 0 e 40"
  else Except.ok ⟨n, goFib n, "go"⟩

/-- The Node.js `calculate_fibonacci` iterative loop:
`a=0, b=1; n times [a,b] = [b, a+b]; return a`. -/
def nodeFibLoop : Int × Int → Nat → Int × Int
  | p, 0 => p
  | (a, b), k + 1 => nodeFibLoop (b, a + b) k

/-- The Node.js `calculate_fibonacci` tool (`index.js` lines 17-42):
reject `n` outside `[0, 40]`, else return the stringified
`{input, result, server_type}` payload (modelled before stringification). -/
def nodeCalculateFibonacci (n : Int) : Except String Json :=
  if n < 0 || n > 40 then Except.error "n deve estar entre 0 e 40"
  else Except.ok (Json.obj
    [("input", Json.num n), ("result", Json.num (nodeFibLoop (0, 1) n.toNat).1),
     ("server_type", Json.str "nodejs")])

/-- The Java private `fibonacci` method: `n` for `n <= 1`, else the sum of
the two recursive calls. -/
def javaFibonacci (n : Int) : Int :=
  if n ≤ 1 then n else javaFibonacci (n - 1) + javaFibonacci (n - 2)
termination_by n.toNat
decreasing_by all_goals omega

/-- The Java `calculateFibonacci` tool (`McpToolsService.java` lines
24-38): reject `n` outside `[0, 40]` with an exception, else the response
map (modelled as its entry list). -/
def calculateFibonacci (n : Int) : Except String (List (String × Json)) :=
  if n < 0 || n > 40 then Except.error "n deve estar entre 0 e 40"
  else Except.ok
    [("input", Json.num n), ("result", Json.num (javaFibonacci n)),
     ("server_type", Json.str "java")]

mutual

/-- The Node.js `transformStrings` (`index.js` lines 89-102): recurse into
arrays and objects, uppercase strings, leave everything else unchanged. -/
def nodeTransformStrings : Json → Json
  | .obj fields => .obj (nodeTransformFields fields)
  | .arr xs => .arr (nodeTransformList xs)
  | .str s => .str (jsToUpper s)
  | v => v

/-- `obj.map(transformStrings)` for arrays. -/
def nodeTransformList : List Json → List Json
  | [] => []
  | x :: xs => nodeTransformStrings x :: nodeTransformList xs

/-- The `Object.entries` loop for objects. -/
def nodeTransformFields : List (String × Json) → List (String × Json)
  | [] => []
  | kv :: rest => (kv.1, nodeTransformStrings kv.2) :: nodeTransformFields rest

end

mutual

/-- The Go server's `transformStrings` closure (inside
`handleProcessData`): type-switch over map / slice / string / default. -/
def goTransformStrings : Json → Json
  | .obj fields => .obj (goTransformFields fields)
  | .arr xs => .arr (goTransformList xs)
  | .str s => .str (jsToUpper s)
  | v => v

/-- The slice case of the Go type switch. -/
def goTransformList : List Json → List Json
  | [] => []
  | x :: xs => goTransformStrings x :: goTransformList xs

/-- The map case of the Go type switch. -/
def goTransformFields : List (String × Json) → List (String × Json)
  | [] => []
  | kv :: rest => (kv.1, goTransformStrings kv.2) :: goTransformFields rest

end

mutual

/-- The Java `transformStrings` (`McpToolsService.java` lines 88-102):
entries whose value is a `String` are uppercased, nested `Map` values are
recursed into, every other value — including lists — is kept unchanged. -/
def javaTransformStrings : List (String × Json) → List (String × Json)
  | [] => []
  | (k, v) :: rest => (k, javaTransformValue v) :: javaTransformStrings rest

/-- The three-way branch on one entry's value in the Java loop. -/
def javaTransformValue : Json → Json
  | Json.str s => Json.str (jsToUpper s)
  | Json.obj inner => Json.obj (javaTransformStrings inner)
  | other => other

end

/-- The scenario's `process_json_data` argument payload:
`{name: 'benchmark', count: 42, nested: {key: 'value'}}`. -/
def processJsonInput : Json :=
  Json.obj [("name", Json.str "benchmark"), ("count", Json.num 42),
            ("nested", Json.obj [("key", Json.str "value")])]

/-! ### The orchestrator (`src/benchmark/run_benchmark.sh`) -/

/-- Actions the orchestrator performs, in script order. -/
inductive OrchAction where
  | stopAll
  | startServer (name : String)
  | warmup (name : String)
  | statsStart (name : String)
  | k6Bench (name : String)
  | statsStop (name : String)
  | warnContinue (name : String)
  | consolidate
  deriving Repr, DecidableEq

/-- The polling loop of `wait_for_health` (lines 48-80): probe the target
(`probe t` is whether any of the three health probes succeeds at second
`t`), sleep, bump `elapsed`, and give up once `elapsed` reaches the
60-second bound. -/
def whLoop (probe : Nat → Bool) (elapsed : Nat) : Bool :=
  if probe elapsed then true
  else if elapsed + 1 ≥ 60 then false
  else whLoop probe (elapsed + 1)
termination_by 60 - elapsed
decreasing_by omega

/-- `wait_for_health`: start polling with `elapsed = 0`. -/
def wait_for_health (probe : Nat → Bool) : Bool :=
  whLoop probe 0

/-- `benchmark_server name` (lines 137-188): stop everything, start the
target, wait for health; on success warm up, start the stats collector,
run k6 and stop the collector — on health timeout return failure having
done none of those. -/
def benchmark_server (name : String) (probe : Nat → Bool) : List OrchAction × Bool :=
  let pre := [OrchAction.stopAll, OrchAction.startServer name]
  if wait_for_health probe then
    (pre ++ [OrchAction.warmup name, OrchAction.statsStart name,
             OrchAction.k6Bench name, OrchAction.statsStop name], true)
  else (pre, false)

/-- The per-target loop of `main` (lines 212-214):
`benchmark_server "$name" || warn "Failed to benchmark $name, continuing..."`
— a failed target is logged and the loop moves on to the next target. -/
def mainLoop (probes : String → Nat → Bool) : List String → List OrchAction
  | [] => []
  | name :: rest =>
    let (acts, ok) := benchmark_server name (probes name)
    acts ++ (if ok then [] else [OrchAction.warnContinue name]) ++ mainLoop probes rest

/-- `main` (lines 192-233) over a configured target list: benchmark each
target in turn, stop all servers, consolidate results. -/
def mainRun (probes : String → Nat → Bool) (targets : List String) : List OrchAction :=
  mainLoop probes targets ++ [OrchAction.stopAll, OrchAction.consolidate]

/-- The target list hard-coded in `main` (line 212). -/
def mainTargets : List String := ["rust", "java", "go"]

/-! ### Claim-side definitions

Each is written from the specification's words, to be compared with the
source-translated definitions above. -/

/-- The Response Decoder policy as the specification words it: direct JSON
parse when the trimmed body opens an object/array and the parse succeeds;
otherwise the first newline-separated `data:` frame whose stripped payload
opens an object and parses; otherwise "no result". -/
def parseBodyDescribed (p : String → Option Json) (body : Option String) : Option Json :=
  match body with
  | none => none
  | some b =>
    let text := jsTrim b
    if (jsStartsWith text "\x7b" || jsStartsWith text "[") && (p text).isSome then p text
    else
      (jsSplit text '\n').findSome? fun line =>
        let trimmed := jsTrim line
        let payload := jsTrim (jsSubstring trimmed 5)
        if jsStartsWith trimmed "data:" && jsStartsWith payload "\x7b" then p payload
        else none

/-- The fibonacci validation predicate as the claim words it: the payload
has a `result.content` ARRAY whose FIRST element's `text` field parses as
JSON (under the engine's `ToString` coercion) with a `result` field equal
to 55. -/
def fibCheckClaimed (p : String → Option Json) (r : Option Json) : Bool :=
  match r with
  | some j =>
    match j.jsGet "result" with
    | some res =>
      match res.jsGet "content" with
      | some (Json.arr elts) =>
        match elts.head? with
        | some first =>
          match first.jsGet "text" with
          | some t =>
            match p (jsToString t) with
            | some v =>
              match v.jsGet "result" with
              | some (Json.num n) => n == 55
              | _ => false
            | none => false
          | none => false
        | none => false
      | _ => false
    | none => false
  | none => false

/-- What `fibCheck` actually accepts: a `result.content` value indexable at
0 under JavaScript semantics (array element, object `"0"` property, or
first character of a string) whose element has a `text` field whose
`ToString` coercion parses as JSON with `result` field the number 55. -/
def fibCheckDescr (p : String → Option Json) (r : Option Json) : Prop :=
  ∃ j res content elt t v,
    r = some j ∧ j.jsGet "result" = some res ∧ res.jsGet "content" = some content ∧
    content.jsIndex 0 = some elt ∧ elt.jsGet "text" = some t ∧
    p (jsToString t) = some v ∧ v.jsGet "result" = some (Json.num 55)

/-- What the claim states for the transform predicate: the decoded
payload's `result.content[0].text` parses as JSON (under the engine's
`ToString` coercion) whose `transformed_data.name` equals `"BENCHMARK"`. -/
def transformCheckDescr (p : String → Option Json) (r : Option Json) : Prop :=
  ∃ j res content elt t v td,
    r = some j ∧ j.jsGet "result" = some res ∧ res.jsGet "content" = some content ∧
    content.jsIndex 0 = some elt ∧ elt.jsGet "text" = some t ∧
    p (jsToString t) = some v ∧ v.jsGet "transformed_data" = some td ∧
    td.jsGet "name" = some (Json.str "BENCHMARK")

/-! ### Helper lemmas -/

/-- Property access succeeds only on objects, which are truthy. -/
theorem jsGet_some_truthy {j : Json} {k : String} {v : Json} (h : j.jsGet k = some v) :
    j.jsTruthy = true := by
  cases j <;> simp_all [Json.jsGet, Json.jsTruthy]

/-- Indexing succeeds only on arrays, objects and nonempty strings, all
truthy. -/
theorem jsIndex_some_truthy {j : Json} {i : Nat} {v : Json} (h : j.jsIndex i = some v) :
    j.jsTruthy = true := by
  cases j with
  | str s =>
    simp only [Json.jsIndex, Option.map_eq_some'] at h
    obtain ⟨c, hc, -⟩ := h
    have hlen : i < s.data.length := (List.get?_eq_some.mp hc).1
    simp only [Json.jsTruthy, bne_iff_ne, ne_eq]
    intro hs
    subst hs
    simp at hlen
  | _ => simp_all [Json.jsIndex, Json.jsTruthy]

/-- An `Event.post` emitted through `mcpPost`. -/
def Event.isCounted : Event → Bool
  | .post _ _ => true
  | _ => false

/-- A teardown `http.del`. -/
def Event.isDel : Event → Bool
  | .del _ => true
  | _ => false

/-- Driving a list of complete sessions in sequence (one `mcpSession` per
scenario run), threading the metrics state. -/
def runSessions (p : String → Option Json) : List (String × ServerBehavior) → Metrics → Metrics
  | [], m => m
  | s :: rest, m => runSessions p rest (mcpSession p s.1 s.2 m).1

/-- `mcpSession` bumps `mcp_requests` by exactly 2. -/
theorem mcpSession_requests (p : String → Option Json) (toolName : String)
    (sv : ServerBehavior) (m : Metrics) :
    (mcpSession p toolName sv m).1.mcpRequests = m.mcpRequests + 2 := by
  simp only [mcpSession, mcpPost]
  split <;> rfl

/-- The HTTP trace of one session: initialize post, notification raw post,
tool-call post, then the teardown DELETE exactly when a nonempty session
token was captured from the initialize response header. -/
theorem mcpSession_trace (p : String → Option Json) (toolName : String)
    (sv : ServerBehavior) (m : Metrics) :
    (mcpSession p toolName sv m).2.1 =
      [Event.post "initialize" none,
       Event.rawPost "notifications/initialized" (nextSessionId sv.initRes none),
       Event.post ("tools/call:" ++ toolName) (nextSessionId sv.initRes none)]
      ++ (match nextSessionId sv.initRes none with
          | some s => if s = "" then [] else [Event.del s]
          | none => []) := by
  simp only [mcpSession, mcpPost]

/-- `runSessions` over `K` sessions adds `2 * K` to `mcp_requests`. -/
theorem runSessions_requests (p : String → Option Json)
    (sessions : List (String × ServerBehavior)) (m : Metrics) :
    (runSessions p sessions m).mcpRequests = m.mcpRequests + 2 * sessions.length := by
  induction sessions generalizing m with
  | nil => simp [runSessions]
  | cons s rest ih =>
    simp only [runSessions, List.length_cons]
    rw [ih, mcpSession_requests]
    ring

/-- C3: `mcp_requests` is bumped exactly once per handshake and once per
invoke — only inside `mcpPost` — so one session contributes exactly 2 (the
two `post` events of its trace), the standalone `tools/list` session
likewise contributes 2, and `K` completed sessions contribute `2 * K`; the
notification and the teardown DELETE never touch the counter. -/
theorem c3_mcp_requests_counter (p : String → Option Json) (toolName : String)
    (sv : ServerBehavior) (m : Metrics) (sessions : List (String × ServerBehavior)) :
    (mcpSession p toolName sv m).1.mcpRequests = m.mcpRequests + 2
    ∧ (mcpSession p toolName sv m).2.1.countP (fun e => e.isCounted) = 2
    ∧ (listSessionBlock p sv m).1.mcpRequests = m.mcpRequests + 2
    ∧ (runSessions p sessions m).mcpRequests = m.mcpRequests + 2 * sessions.length := by
  refine ⟨mcpSession_requests p toolName sv m, ?_, rfl, runSessions_requests p sessions m⟩
  rw [mcpSession_trace]
  rcases nextSessionId sv.initRes none with _ | s
  · simp [List.countP, List.countP.go, Event.isCounted]
  · by_cases hs : s = "" <;> simp [hs, List.countP, List.countP.go, Event.isCounted]

/-- C4: the teardown's outcome never flips the session result — the whole
session output is invariant under changing the teardown response; the
error classification (`mcp_errors`, `mcp_error_rate`) is a function of the
invoke step's decoded result only; and the teardown DELETE is issued
exactly when a nonempty session token was captured. -/
theorem c4_teardown_frame (p : String → Option Json) (toolName : String)
    (sv : ServerBehavior) (d d' : HttpResponse) (m : Metrics) :
    mcpSession p toolName { sv with deleteRes := d } m
      = mcpSession p toolName { sv with deleteRes := d' } m
    ∧ (mcpSession p toolName sv m).1.errorRateSamples
        = m.errorRateSamples ++ [isErrorOf (parseBody p sv.callRes.body)]
    ∧ (mcpSession p toolName sv m).1.mcpErrors
        = m.mcpErrors + (if isErrorOf (parseBody p sv.callRes.body) then 1 else 0)
    ∧ (mcpSession p toolName sv m).2.1.countP (fun e => e.isDel)
        = (if jsTruthyStr (nextSessionId sv.initRes none) then 1 else 0) := by
  refine ⟨rfl, ?_, ?_, ?_⟩
  · simp only [mcpSession, mcpPost]
    split <;> simp_all
  · simp only [mcpSession, mcpPost]
    split <;> simp_all
  · rw [mcpSession_trace]
    rcases nextSessionId sv.initRes none with _ | s
    · simp [List.countP, List.countP.go, Event.isDel, jsTruthyStr]
    · by_cases hs : s = "" <;>
        simp [hs, List.countP, List.countP.go, Event.isDel, jsTruthyStr]

/-- C6: every iteration of the default function runs the four scenarios as
full sessions in the declared `TOOLS` order, then exactly one standalone
`tools/list` session, then the fixed `sleep(0.1)` think-time — for any
server behaviour and any starting metrics state. -/
theorem c6_iteration_order (p : String → Option Json) (seq : Nat → ServerBehavior)
    (m : Metrics) :
    (defaultIteration p seq m).2.1 =
      [IterEvent.scenario "calculate_fibonacci",
       IterEvent.scenario "fetch_external_data",
       IterEvent.scenario "process_json_data",
       IterEvent.scenario "simulate_database_query",
       IterEvent.listing,
       IterEvent.think (1/10)] := rfl

/-- A string starting with `{` is nonempty. -/
theorem jsStartsWith_brace_ne_empty {s : String} (h : jsStartsWith s "\x7b" = true) :
    (s != "") = true := by
  rcases s with ⟨cs⟩
  cases cs with
  | nil => exact absurd h (by decide)
  | cons c rest =>
    simp only [bne_iff_ne, ne_eq]
    intro h'
    exact absurd (congrArg String.data h') (by simp)

/-- The SSE loop of `parseBody` returns the first `data:` frame whose
stripped payload opens an object and parses. -/
theorem sseLoop_eq_findSome (p : String → Option Json) (lines : List String) :
    sseLoop p lines = lines.findSome? (fun line =>
      let trimmed := jsTrim line
      let payload := jsTrim (jsSubstring trimmed 5)
      if jsStartsWith trimmed "data:" && jsStartsWith payload "\x7b" then p payload
      else none) := by
  induction lines with
  | nil => rfl
  | cons line rest ih =>
    simp only [sseLoop, List.findSome?_cons]
    by_cases hd : jsStartsWith (jsTrim line) "data:"
    · by_cases hp : jsStartsWith (jsTrim (jsSubstring (jsTrim line) 5)) "\x7b"
      · have hne := jsStartsWith_brace_ne_empty hp
        cases hpp : p (jsTrim (jsSubstring (jsTrim line) 5)) with
        | none => simp [hd, hp, hne, hpp, ih]
        | some v => simp [hd, hp, hne, hpp]
      · simp [hd, hp, ih]
    · simp [hd, ih]

/-- C2: `parseBody` implements exactly the decoding policy the
specification states — direct JSON parse of bodies opening an object or
array, otherwise the first parsing `data:` frame, otherwise "no result"
(`none`, never an exception) — for every parse function and every body,
including `null` and empty ones. -/
theorem c2_parseBody_policy (p : String → Option Json) (body : Option String) :
    parseBody p body = parseBodyDescribed p body := by
  cases body with
  | none => rfl
  | some b =>
    simp only [parseBody, parseBodyDescribed]
    by_cases hb : b = ""
    · subst hb; rfl
    · rw [if_neg hb]
      by_cases ht : (jsTrim b).length = 0
      · rw [if_pos ht]
        have htext : jsTrim b = "" := by
          have hdata : (jsTrim b).data = [] := List.length_eq_zero.mp ht
          cases hE : jsTrim b
          rw [hE] at hdata
          simp at hdata
          subst hdata
          rfl
        rw [htext]
        rfl
      · rw [if_neg ht]
        by_cases hstart : (jsStartsWith (jsTrim b) "\x7b" || jsStartsWith (jsTrim b) "[") = true
        · rw [if_pos hstart]
          cases hpp : p (jsTrim b) with
          | none => simp [hstart, hpp, sseLoop_eq_findSome]
          | some v => simp [hstart, hpp]
        · have hstart' : (jsStartsWith (jsTrim b) "\x7b" || jsStartsWith (jsTrim b) "[") = false :=
            Bool.not_eq_true _ ▸ (by simpa using hstart)
          rw [if_neg (by simp [hstart'])]
          simp [hstart', sseLoop_eq_findSome]

/-- If every probe in the first 60 seconds fails, the health poll loop
gives up. -/
theorem whLoop_false (probe : Nat → Bool) (h : ∀ k, k < 60 → probe k = false) :
    ∀ d e, e + d = 60 → 1 ≤ d → whLoop probe e = false := by
  intro d
  induction d with
  | zero => omega
  | succ d ih =>
    intro e he _
    rw [whLoop]
    rw [h e (by omega)]
    simp only [if_false, Bool.false_eq_true]
    by_cases hend : e + 1 ≥ 60
    · simp [hend]
    · rw [if_neg hend]
      exact ih (e + 1) (by omega) (by omega)

/-- Every configured target gets its start attempt, whatever happens to
the others. -/
theorem mainLoop_start_mem (probes : String → Nat → Bool) :
    ∀ (targets : List String) (u : String), u ∈ targets →
      OrchAction.startServer u ∈ mainLoop probes targets := by
  intro targets
  induction targets with
  | nil => intro u hu; cases hu
  | cons name rest ih =>
    intro u hu
    simp only [mainLoop]
    cases hu with
    | head =>
      simp only [benchmark_server]
      split <;> simp
    | tail _ hmem =>
      have := ih u hmem
      simp only [benchmark_server]
      split <;> simp_all

/-- A target whose health poll failed contributes no k6 run, no warmup and
no stats collection to the whole run's action trace. -/
theorem mainLoop_skips_unhealthy (probes : String → Nat → Bool) (t : String)
    (hwf : wait_for_health (probes t) = false) :
    ∀ targets : List String,
      OrchAction.k6Bench t ∉ mainLoop probes targets
      ∧ OrchAction.warmup t ∉ mainLoop probes targets
      ∧ OrchAction.statsStart t ∉ mainLoop probes targets := by
  intro targets
  induction targets with
  | nil => simp [mainLoop]
  | cons name rest ih =>
    obtain ⟨ihk, ihw, ihs⟩ := ih
    by_cases hn : name = t
    · subst hn
      simp only [mainLoop, benchmark_server, hwf, Bool.false_eq_true, if_false]
      refine ⟨?_, ?_, ?_⟩ <;> simp [ihk, ihw, ihs]
    · have hn' : ¬t = name := fun hh => hn hh.symm
      simp only [mainLoop, benchmark_server]
      split <;> (refine ⟨?_, ?_, ?_⟩ <;> simp [hn', ihk, ihw, ihs])

/-- C9: a target that passes no health probe within the 60-second bound is
skipped — its pipeline stops after stop-all/start, with no warmup, no
stats collection and no k6 load — and the orchestrator still runs every
other configured target: the loop never aborts. -/
theorem c9_unhealthy_target_skipped (probes : String → Nat → Bool)
    (targets : List String) (t : String)
    (h : ∀ k, k < 60 → probes t k = false) :
    wait_for_health (probes t) = false
    ∧ benchmark_server t (probes t)
        = ([OrchAction.stopAll, OrchAction.startServer t], false)
    ∧ (∀ u, u ∈ targets → OrchAction.startServer u ∈ mainRun probes targets)
    ∧ OrchAction.k6Bench t ∉ mainRun probes targets
    ∧ OrchAction.warmup t ∉ mainRun probes targets
    ∧ OrchAction.statsStart t ∉ mainRun probes targets := by
  have hwf : wait_for_health (probes t) = false :=
    whLoop_false (probes t) h 60 0 rfl (by omega)
  obtain ⟨hk, hw, hs⟩ := mainLoop_skips_unhealthy probes t hwf targets
  refine ⟨hwf, ?_, ?_, ?_, ?_, ?_⟩
  · simp [benchmark_server, hwf]
  · intro u hu
    simp [mainRun, mainLoop_start_mem probes targets u hu]
  · simp [mainRun, hk]
  · simp [mainRun, hw]
  · simp [mainRun, hs]

/-- Probe behaviour where `java` never becomes healthy and every other
target is healthy immediately. -/
def c9Probes : String → Nat → Bool := fun name _ => name != "java"

/-- Witness for C9 at the script's hard-coded target list with an
unhealthy `java` target. -/
theorem c9_witness :
    wait_for_health (c9Probes "java") = false
    ∧ benchmark_server "java" (c9Probes "java")
        = ([OrchAction.stopAll, OrchAction.startServer "java"], false)
    ∧ (∀ u, u ∈ mainTargets → OrchAction.startServer u ∈ mainRun c9Probes mainTargets)
    ∧ OrchAction.k6Bench "java" ∉ mainRun c9Probes mainTargets
    ∧ OrchAction.warmup "java" ∉ mainRun c9Probes mainTargets
    ∧ OrchAction.statsStart "java" ∉ mainRun c9Probes mainTargets :=
  c9_unhealthy_target_skipped c9Probes mainTargets "java" (by decide)

/-- The Go recursive `fib` computes the Fibonacci numbers. -/
theorem goFib_eq_fib : ∀ (m : Nat) (n : Int), 0 ≤ n → n.toNat = m →
    goFib n = (Nat.fib m : Int) := by
  intro m
  induction m using Nat.strong_induction_on with
  | _ m ih =>
    intro n hn hm
    rw [goFib]
    by_cases h1 : n ≤ 1
    · have : n = 0 ∨ n = 1 := by omega
      rcases this with rfl | rfl
      · simp only [Int.toNat_zero] at hm
        subst hm
        norm_num
      · simp only [Int.toNat_one] at hm
        subst hm
        norm_num
    · rw [if_neg h1]
      have hm2 : 2 ≤ m := by omega
      rw [ih (m - 1) (by omega) (n - 1) (by omega) (by omega),
          ih (m - 2) (by omega) (n - 2) (by omega) (by omega)]
      have hfib : Nat.fib m = Nat.fib (m - 2) + Nat.fib (m - 2 + 1) := by
        have he : m - 2 + 2 = m := by omega
        rw [← he, Nat.fib_add_two]
        simp
      have he1 : m - 1 = m - 2 + 1 := by omega
      rw [he1, hfib]
      push_cast
      ring

/-- The Java recursive `fibonacci` agrees with the Go one on every input
(both return `n` itself below 2, including for negative `n`). -/
theorem javaFibonacci_eq_goFib : ∀ (m : Nat) (n : Int), n.toNat = m →
    javaFibonacci n = goFib n := by
  intro m
  induction m using Nat.strong_induction_on with
  | _ m ih =>
    intro n hm
    rw [javaFibonacci, goFib]
    by_cases h1 : n ≤ 1
    · simp [h1]
    · rw [if_neg h1, if_neg h1]
      have hm2 : 2 ≤ m := by omega
      rw [ih (m - 1) (by omega) (n - 1) (by omega),
          ih (m - 2) (by omega) (n - 2) (by omega)]

/-- The Node.js iterative pair loop tracks consecutive Fibonacci values. -/
theorem nodeFibLoop_fib : ∀ (k a : Nat),
    nodeFibLoop ((Nat.fib a : Int), (Nat.fib (a + 1) : Int)) k
      = ((Nat.fib (a + k) : Int), (Nat.fib (a + k + 1) : Int)) := by
  intro k
  induction k with
  | zero => intro a; rfl
  | succ k ih =>
    intro a
    have hstep : nodeFibLoop ((Nat.fib a : Int), (Nat.fib (a + 1) : Int)) (k + 1)
        = nodeFibLoop ((Nat.fib (a + 1) : Int), (Nat.fib a : Int) + (Nat.fib (a + 1) : Int)) k :=
      rfl
    have hsum : (Nat.fib a : Int) + (Nat.fib (a + 1) : Int) = (Nat.fib (a + 1 + 1) : Int) := by
      rw [show a + 1 + 1 = a + 2 from rfl, Nat.fib_add_two]
      push_cast
      ring
    rw [hstep, hsum, ih (a + 1)]
    have e1 : a + 1 + k = a + (k + 1) := by omega
    rw [e1]

/-- The Node.js loop started from `(0, 1)` lands on `fib`. -/
theorem nodeFibLoop_value (k : Nat) : (nodeFibLoop (0, 1) k).1 = (Nat.fib k : Int) := by
  have h0 : ((0 : Int), (1 : Int)) = ((Nat.fib 0 : Int), (Nat.fib 1 : Int)) := by norm_num
  rw [h0, nodeFibLoop_fib k 0]
  simp

/-- C10: on every integer `n` in `[0, 40]` the Go recursive handler and the
Node.js iterative handler both succeed with the `n`-th Fibonacci number as
the `result` value, and on every `n` outside `[0, 40]` both reject with an
error instead of a result. -/
theorem c10_fib_handlers_agree (n : Int) :
    (0 ≤ n ∧ n ≤ 40 →
      handleFibonacci n = Except.ok ⟨n, (Nat.fib n.toNat : Int), "go"⟩
      ∧ nodeCalculateFibonacci n = Except.ok (Json.obj
          [("input", Json.num n), ("result", Json.num (Nat.fib n.toNat : Int)),
           ("server_type", Json.str "nodejs")]))
    ∧ ((n < 0 ∨ 40 < n) →
      handleFibonacci n = Except.error "n deve estar entre 0 e 40"
      ∧ nodeCalculateFibonacci n = Except.error "n deve estar entre 0 e 40") := by
  constructor
  · rintro ⟨hlo, hhi⟩
    have hguard : (decide (n < 0) || decide (n > 40)) = false := by
      simp only [Bool.or_eq_false_iff, decide_eq_false_iff_not]
      omega
    constructor
    · simp only [handleFibonacci, hguard, Bool.false_eq_true, if_false]
      rw [goFib_eq_fib n.toNat n hlo rfl]
    · simp only [nodeCalculateFibonacci, hguard, Bool.false_eq_true, if_false]
      rw [nodeFibLoop_value]
  · intro hout
    have hguard : (decide (n < 0) || decide (n > 40)) = true := by
      rcases hout with h | h <;> simp <;> omega
    constructor
    · simp [handleFibonacci, hguard]
    · simp [nodeCalculateFibonacci, hguard]

/-- Witness for C10: both handlers return 55 at `n = 10`, and both reject
`n = 41`. -/
theorem c10_witness :
    (handleFibonacci 10 = Except.ok ⟨10, (Nat.fib (10 : Int).toNat : Int), "go"⟩
     ∧ nodeCalculateFibonacci 10 = Except.ok (Json.obj
         [("input", Json.num 10), ("result", Json.num (Nat.fib (10 : Int).toNat : Int)),
          ("server_type", Json.str "nodejs")]))
    ∧ handleFibonacci 41 = Except.error "n deve estar entre 0 e 40"
    ∧ (Nat.fib (10 : Int).toNat : Int) = 55 :=
  ⟨(c10_fib_handlers_agree 10).1 ⟨by norm_num, by norm_num⟩,
   ((c10_fib_handlers_agree 41).2 (by norm_num)).1,
   by decide⟩

/-- The fibonacci check accepts exactly the payloads described by
`fibCheckDescr`. -/
theorem fibCheck_iff (p : String → Option Json) (r : Option Json) :
    fibCheck p r = true ↔ fibCheckDescr p r := by
  constructor
  · intro h
    unfold fibCheck at h
    cases r with
    | none => simp at h
    | some j =>
      by_cases hjt : j.jsTruthy
      case neg => simp [hjt] at h
      simp only [hjt, Bool.not_true, Bool.false_eq_true, if_false] at h
      cases hres : j.jsGet "result" with
      | none => simp [hres] at h
      | some res =>
        simp only [hres] at h
        by_cases hrt : res.jsTruthy
        case neg => simp [hrt] at h
        simp only [hrt, Bool.not_true, Bool.false_eq_true, if_false] at h
        cases hcontent : res.jsGet "content" with
        | none => simp [hcontent] at h
        | some content =>
          simp only [hcontent] at h
          by_cases hct : content.jsTruthy
          case neg => simp [hct] at h
          simp only [hct, Bool.not_true, Bool.false_eq_true, if_false] at h
          cases helt : content.jsIndex 0 with
          | none => simp [helt] at h
          | some elt =>
            simp only [helt] at h
            cases htext : elt.jsGet "text" with
            | none => simp [htext] at h
            | some t =>
              simp only [htext] at h
              cases hp : p (jsToString t) with
              | none => simp [hp] at h
              | some v =>
                simp only [hp] at h
                cases hv : v.jsGet "result" with
                | none => simp [hv] at h
                | some w =>
                  simp only [hv] at h
                  cases w with
                  | num n =>
                    have hn : n = 55 := by simpa using h
                    subst hn
                    exact ⟨j, res, content, elt, t, v, rfl, hres, hcontent,
                           helt, htext, hp, hv⟩
                  | _ => simp at h
  · rintro ⟨j, res, content, elt, t, v, rfl, hres, hcontent, helt, htext, hp, hv⟩
    have hjt := jsGet_some_truthy hres
    have hrt := jsGet_some_truthy hcontent
    have hct := jsIndex_some_truthy helt
    unfold fibCheck
    simp [hjt, hres, hrt, hcontent, hct, helt, htext, hp, hv]

/-- The transform check accepts exactly the payloads described by
`transformCheckDescr`. -/
theorem transformCheck_iff (p : String → Option Json) (r : Option Json) :
    transformCheck p r = true ↔ transformCheckDescr p r := by
  constructor
  · intro h
    unfold transformCheck at h
    cases r with
    | none => simp at h
    | some j =>
      by_cases hjt : j.jsTruthy
      case neg => simp [hjt] at h
      simp only [hjt, Bool.not_true, Bool.false_eq_true, if_false] at h
      cases hres : j.jsGet "result" with
      | none => simp [hres] at h
      | some res =>
        simp only [hres] at h
        by_cases hrt : res.jsTruthy
        case neg => simp [hrt] at h
        simp only [hrt, Bool.not_true, Bool.false_eq_true, if_false] at h
        cases hcontent : res.jsGet "content" with
        | none => simp [hcontent] at h
        | some content =>
          simp only [hcontent] at h
          by_cases hct : content.jsTruthy
          case neg => simp [hct] at h
          simp only [hct, Bool.not_true, Bool.false_eq_true, if_false] at h
          cases helt : content.jsIndex 0 with
          | none => simp [helt] at h
          | some elt =>
            simp only [helt] at h
            cases htext : elt.jsGet "text" with
            | none => simp [htext] at h
            | some t =>
              simp only [htext] at h
              cases hp : p (jsToString t) with
              | none => simp [hp] at h
              | some v =>
                simp only [hp] at h
                cases htd : v.jsGet "transformed_data" with
                | none => simp [htd] at h
                | some td =>
                  simp only [htd] at h
                  cases hname : td.jsGet "name" with
                  | none => simp [hname] at h
                  | some w =>
                    simp only [hname] at h
                    cases w with
                    | str name =>
                      have hn : name = "BENCHMARK" := by simpa using h
                      subst hn
                      exact ⟨j, res, content, elt, t, v, td, rfl, hres, hcontent,
                             helt, htext, hp, htd, hname⟩
                    | _ => simp at h
  · rintro ⟨j, res, content, elt, t, v, td, rfl, hres, hcontent, helt, htext, hp, htd, hname⟩
    have hjt := jsGet_some_truthy hres
    have hrt := jsGet_some_truthy hcontent
    have hct := jsIndex_some_truthy helt
    unfold transformCheck
    simp [hjt, hres, hrt, hcontent, hct, helt, htext, hp, htd, hname]

/-- A well-formed fibonacci success payload whose tool output carries
`result` 55 (the serialized Node.js output for `n = 10`). -/
def fibPayload55 : Json :=
  Json.obj [("jsonrpc", Json.str "2.0"), ("id", Json.num 2),
    ("result", Json.obj [("content", Json.arr
      [Json.obj [("type", Json.str "text"),
        ("text", Json.str "\x7b\"input\":10,\"result\":55,\"server_type\":\"nodejs\"\x7d")]])])]

/-- The same payload with tool output `result` 54. -/
def fibPayload54 : Json :=
  Json.obj [("jsonrpc", Json.str "2.0"), ("id", Json.num 2),
    ("result", Json.obj [("content", Json.arr
      [Json.obj [("type", Json.str "text"),
        ("text", Json.str "\x7b\"input\":10,\"result\":54,\"server_type\":\"nodejs\"\x7d")]])])]

/-- A payload whose `result.content` is a JSON OBJECT carrying a `"0"`
property (not an array): JavaScript `content[0]` still finds the
element. -/
def c7CexPayload : Json :=
  Json.obj [("result", Json.obj [("content", Json.obj
    [("0", Json.obj [("text", Json.str "\x7b\"result\":55\x7d")])])])]

/-- C7 counterexample: `fibCheck` accepts a payload whose `result.content`
is not an array, so "returns true if and only if the payload has a
`result.content` array whose first element's text parses with `result` 55"
fails in the only-if direction. -/
theorem c7_counterexample :
    fibCheck jsonParse (some c7CexPayload) = true
    ∧ fibCheckClaimed jsonParse (some c7CexPayload) = false := ⟨rfl, rfl⟩

/-- The 55 payload with its `text` field wrapped in a one-element array:
`JSON.parse` coerces the array through `ToString` (join) back to the JSON
string, so the source check still accepts it. -/
def fibPayloadArrayText : Json :=
  Json.obj [("result", Json.obj [("content", Json.arr
    [Json.obj [("text", Json.arr [Json.str "\x7b\"result\":55\x7d"])]])])]

/-- C7 (amended): `fibCheck` returns true exactly on payloads whose
`result.content`, indexed at 0 under JavaScript semantics (array element
or object `"0"` property), yields an element whose `text` field — coerced
to a string by the engine's `ToString` before parsing — parses as JSON
with `result` field 55; the Go, Node.js and Java `calculate_fibonacci`
handlers all produce `result = 55` for `n = 10`; and the scenario
validates exactly that value (accepting a 55 payload, also through the
array-text coercion, rejecting a 54 payload). -/
theorem c7_fib_scenario :
    (∀ (p : String → Option Json) (r : Option Json),
        fibCheck p r = true ↔ fibCheckDescr p r)
    ∧ handleFibonacci 10 = Except.ok ⟨10, 55, "go"⟩
    ∧ nodeCalculateFibonacci 10 = Except.ok (Json.obj
        [("input", Json.num 10), ("result", Json.num 55),
         ("server_type", Json.str "nodejs")])
    ∧ calculateFibonacci 10 = Except.ok
        [("input", Json.num 10), ("result", Json.num 55),
         ("server_type", Json.str "java")]
    ∧ fibCheck jsonParse (some fibPayload55) = true
    ∧ fibCheck jsonParse (some fibPayloadArrayText) = true
    ∧ fibCheck jsonParse (some fibPayload54) = false := by
  have hgo : goFib 10 = 55 := by
    rw [goFib_eq_fib 10 10 (by norm_num) rfl]
    decide
  have hjava : javaFibonacci 10 = 55 := by
    rw [javaFibonacci_eq_goFib 10 10 rfl, hgo]
  refine ⟨fibCheck_iff, ?_, rfl, ?_, rfl, rfl, rfl⟩
  · simp [handleFibonacci, hgo]
  · simp [calculateFibonacci, hjava]

/-- The recursively uppercased transform of the scenario input. -/
def transformedExpected : Json :=
  Json.obj [("name", Json.str "BENCHMARK"), ("count", Json.num 42),
            ("nested", Json.obj [("key", Json.str "VALUE")])]

/-- A well-formed `process_json_data` success payload carrying the
serialized Node.js output for the scenario input. -/
def transformPayload : Json :=
  Json.obj [("jsonrpc", Json.str "2.0"), ("id", Json.num 2),
    ("result", Json.obj [("content", Json.arr
      [Json.obj [("type", Json.str "text"),
        ("text", Json.str "\x7b\"original_keys\":[\"name\",\"count\",\"nested\"],\"transformed_data\":\x7b\"name\":\"BENCHMARK\",\"count\":42,\"nested\":\x7b\"key\":\"VALUE\"\x7d\x7d,\"server_type\":\"nodejs\"\x7d")]])])]

/-- A transform payload whose `text` field is a one-element array holding
the JSON string: accepted through the `ToString` coercion. -/
def transformPayloadArrayText : Json :=
  Json.obj [("result", Json.obj [("content", Json.arr
    [Json.obj [("text", Json.arr
      [Json.str "\x7b\"transformed_data\":\x7b\"name\":\"BENCHMARK\"\x7d\x7d"])]])])]

set_option maxRecDepth 8000 in
/-- C8: `transformCheck` returns true exactly on payloads whose
`result.content[0].text` — under the engine's `ToString` coercion of the
`text` argument — parses as JSON with `transformed_data.name` equal to
`"BENCHMARK"`; on the scenario input all three servers' transforms
uppercase every string value (top-level `name` and nested `key`) and leave
the non-string `count` unchanged; and the check accepts the resulting
payload, also when its `text` is wrapped in a one-element array. -/
theorem c8_transform_scenario :
    (∀ (p : String → Option Json) (r : Option Json),
        transformCheck p r = true ↔ transformCheckDescr p r)
    ∧ nodeTransformStrings processJsonInput = transformedExpected
    ∧ goTransformStrings processJsonInput = transformedExpected
    ∧ javaTransformStrings
        [("name", Json.str "benchmark"), ("count", Json.num 42),
         ("nested", Json.obj [("key", Json.str "value")])]
      = [("name", Json.str "BENCHMARK"), ("count", Json.num 42),
         ("nested", Json.obj [("key", Json.str "VALUE")])]
    ∧ transformCheck jsonParse (some transformPayload) = true
    ∧ transformCheck jsonParse (some transformPayloadArrayText) = true :=
  ⟨transformCheck_iff, rfl, rfl, rfl, rfl, rfl⟩

/-- C1 (amended): the session's error classification is `isErrorOf` of the
invoke step's decoded payload — failed exactly when the decode yields no
result, the payload is falsy, it carries a truthy `error` field, or no
truthy `result` field.  The scenario's validation predicate plays no part
in it (its outcome feeds only the separate k6 checks metric). -/
theorem c1_session_error_classification (p : String → Option Json) (toolName : String)
    (sv : ServerBehavior) (m : Metrics) :
    (mcpSession p toolName sv m).1.errorRateSamples
      = m.errorRateSamples ++ [isErrorOf (parseBody p sv.callRes.body)]
    ∧ (mcpSession p toolName sv m).1.mcpErrors
      = m.mcpErrors + (if isErrorOf (parseBody p sv.callRes.body) then 1 else 0)
    ∧ (∀ r : Option Json, isErrorOf r = false ↔
        ∃ j, r = some j ∧ j.jsTruthy = true
          ∧ Json.jsTruthyOpt (j.jsGet "error") = false
          ∧ Json.jsTruthyOpt (j.jsGet "result") = true) := by
  refine ⟨?_, ?_, ?_⟩
  · simp only [mcpSession, mcpPost]
    split <;> simp_all
  · simp only [mcpSession, mcpPost]
    split <;> simp_all
  · intro r
    constructor
    · intro h
      cases r with
      | none => simp [isErrorOf] at h
      | some j =>
        unfold isErrorOf at h
        by_cases hjt : j.jsTruthy
        case neg => simp [hjt] at h
        simp only [hjt, Bool.not_true, Bool.false_eq_true, if_false] at h
        by_cases herr : Json.jsTruthyOpt (j.jsGet "error")
        case pos => simp [herr] at h
        simp only [herr, Bool.false_eq_true, if_false, Bool.not_eq_false] at h
        exact ⟨j, rfl, hjt, by simpa using herr, by simpa using h⟩
    · rintro ⟨j, rfl, h1, h2, h3⟩
      simp [isErrorOf, h1, h2, h3]

/-- A server whose invoke response is a well-formed `tools/call` success
payload carrying tool output `result = 54` — a value the fibonacci
scenario's expected-value check rejects. -/
def c1Server : ServerBehavior :=
  { initRes := { sessionHeader := some "sess-1", body := none, timing := 3 },
    notifyRes := { sessionHeader := none, body := none, timing := 1 },
    callRes :=
      { sessionHeader := none,
        body := some "\x7b\"jsonrpc\":\"2.0\",\"id\":2,\"result\":\x7b\"content\":[\x7b\"type\":\"text\",\"text\":\"\x7b\\\"result\\\":54\x7d\"\x7d]\x7d\x7d",
        timing := 5 },
    deleteRes := { sessionHeader := none, body := none, timing := 1 } }

set_option maxRecDepth 8000 in
/-- C1 counterexample: a session whose decoded invoke payload has a
`result` field but fails the fibonacci expected-value check (result 54,
not 55) is still classified as succeeded by `mcp_error_rate` — refuting
the claim that the session-succeeded flag is false whenever the scenario's
validation predicate rejects the payload. -/
theorem c1_counterexample :
    (mcpSession jsonParse "calculate_fibonacci" c1Server Metrics.init).1.errorRateSamples
      = [false]
    ∧ (mcpSession jsonParse "calculate_fibonacci" c1Server Metrics.init).1.mcpErrors = 0
    ∧ fibCheck jsonParse
        (mcpSession jsonParse "calculate_fibonacci" c1Server Metrics.init).2.2.callResult
      = false := ⟨rfl, rfl, rfl⟩

/-- C5: when the measured transport failure rate exceeds the configured
5% ceiling the threshold fails the run, yet the emitted artifact is the
full `buildSummary` of the metrics data — every counter, the whole latency
distribution, the session trend and the per-tool trends — exactly as for a
passing run. -/
theorem c5_threshold_breach_full_summary (path server : String) (data : SummaryData)
    (h : 1/20 < httpReqFailedRate data) :
    thresholdPasses data = false
    ∧ (k6Run path server data).passed = false
    ∧ (k6Run path server data).artifact = handleSummary path server data
    ∧ (buildSummary server data).mcp.total_mcp_requests
        = getValue data "mcp_requests" "count" (some 0)
    ∧ (buildSummary server data).mcp.mcp_errors = getValue data "mcp_errors" "count" (some 0)
    ∧ (buildSummary server data).mcp.error_rate = getValue data "mcp_error_rate" "rate" (some 0)
    ∧ (buildSummary server data).http.total_requests = getValue data "http_reqs" "count" (some 0)
    ∧ (buildSummary server data).http.latency.p99 = getPercentile data "http_req_duration" "99"
    ∧ (buildSummary server data).session = extractTrend data "mcp_full_session_duration"
    ∧ (buildSummary server data).tools
        = toolMetrics.filterMap (fun pr => (extractTrend data pr.2).map (fun t => (pr.1, t))) := by
  have hfail : thresholdPasses data = false := by
    simp only [thresholdPasses, decide_eq_false_iff_not]
    exact not_lt.mpr h.le
  exact ⟨hfail, hfail, rfl, rfl, rfl, rfl, rfl, rfl, rfl, rfl⟩

/-- End-of-run metrics data with a 10% transport failure rate. -/
def c5Data : SummaryData :=
  { metrics := fun metric =>
      if metric = "http_req_failed" then
        some (fun key => if key = "rate" then some (1/10) else none)
      else none }

/-- Witness for C5 at a concrete 10% failure rate. -/
theorem c5_witness :
    thresholdPasses c5Data = false
    ∧ (k6Run "results/go_k6.json" "go" c5Data).passed = false
    ∧ (k6Run "results/go_k6.json" "go" c5Data).artifact
        = handleSummary "results/go_k6.json" "go" c5Data
    ∧ (buildSummary "go" c5Data).mcp.total_mcp_requests
        = getValue c5Data "mcp_requests" "count" (some 0)
    ∧ (buildSummary "go" c5Data).mcp.mcp_errors = getValue c5Data "mcp_errors" "count" (some 0)
    ∧ (buildSummary "go" c5Data).mcp.error_rate = getValue c5Data "mcp_error_rate" "rate" (some 0)
    ∧ (buildSummary "go" c5Data).http.total_requests
        = getValue c5Data "http_reqs" "count" (some 0)
    ∧ (buildSummary "go" c5Data).http.latency.p99
        = getPercentile c5Data "http_req_duration" "99"
    ∧ (buildSummary "go" c5Data).session = extractTrend c5Data "mcp_full_session_duration"
    ∧ (buildSummary "go" c5Data).tools
        = toolMetrics.filterMap (fun pr => (extractTrend c5Data pr.2).map (fun t => (pr.1, t))) :=
  c5_threshold_breach_full_summary "results/go_k6.json" "go" c5Data
    (by norm_num [httpReqFailedRate, getValue, c5Data])
